import Mathlib

/-!
Verification of the GPIO / SysTick driver core (STM32F1 demo project).

The definitions below are a shallow embedding of the C sources
`drivers/systick.c`, `drivers/gpio.c` and (for the write-pin variant)
`Drivers/gpio.c` of the arm-reference-project fixture.  Machine integers
(`u32`) are modelled as `Nat` with explicit reduction modulo `2^32` at the
points where the C code can overflow; memory-mapped registers are modelled
as fields of an explicit state record that each operation transforms.
-/

/-- Size of the unsigned 32-bit value space (`u32` wraps modulo this). -/
def UINT32_MOD : Nat := 4294967296

/-- All-ones 32-bit word, the value of `~0` at type `u32`; used to model the
C bitwise complement `~x` of a 32-bit operand as `UINT32_MAX ^^^ x`. -/
def UINT32_MAX : Nat := 0xFFFFFFFF

/-- Unsigned 32-bit subtraction `a - b` as C computes it on `u32` operands:
the result is the forward modular distance `(a - b) mod 2^32`. -/
def sub32 (a b : Nat) : Nat := (a + UINT32_MOD - b % UINT32_MOD) % UINT32_MOD

/-! ## SysTick driver (`drivers/systick.c`)

The only state of the driver is `static volatile u32 tick_count = 0`.  Each
C function reading it takes the current counter value as an explicit
argument; `SysTick_Handler` is the state transformer `tick_count++`. -/

/-- Boot value of `tick_count` (`static volatile u32 tick_count = 0;`). -/
def tick_count_boot : Nat := 0

/-- Embedding of `SysTick_Handler`: `tick_count++;` on a `u32`. -/
def SysTick_Handler (tick_count : Nat) : Nat := (tick_count + 1) % UINT32_MOD

/-- Embedding of `systick_get_ticks`: `return tick_count;`. -/
def systick_get_ticks (tick_count : Nat) : Nat := tick_count

/-- Embedding of `timeout_elapsed`: `return (tick_count - start_tick) >= timeout_ms;`
with the current counter value passed explicitly. -/
def timeout_elapsed (tick_count start_tick timeout_ms : Nat) : Bool :=
  decide (sub32 tick_count start_tick ≥ timeout_ms)

/-- Embedding of the spin loop of `delay_ms`.  `ticks n` is the value the
volatile read of `tick_count` yields at the n-th evaluation of the loop
condition, `start` the captured start value, `fuel` bounds the number of
iterations we unfold.  The result is `some n` when the loop exits after
exactly `n` completed spin iterations, `none` when `fuel` ran out first. -/
def delay_ms_loop (ticks : Nat → Nat) (start ms : Nat) : Nat → Nat → Option Nat
  | 0, _ => none
  | Nat.succ f, n =>
      if sub32 (ticks n) start < ms then delay_ms_loop ticks start ms f (n + 1)
      else some n

/-- Embedding of `delay_ms`: `u32 start = tick_count; while ((tick_count - start) < ms) { }`.
`start` is the value read on entry; the loop is `delay_ms_loop`. -/
def delay_ms (start : Nat) (ticks : Nat → Nat) (ms fuel : Nat) : Option Nat :=
  delay_ms_loop ticks start ms fuel 0

/-! ## Helper lemmas about the tick counter -/

/-- Iterating the handler k times from a counter value below `2^32` yields
`(s + k) mod 2^32`. -/
lemma SysTick_Handler_iterate (s k : Nat) (hs : s < UINT32_MOD) :
    SysTick_Handler^[k] s = (s + k) % UINT32_MOD := by
  induction k with
  | zero =>
      simp only [Function.iterate_zero, id_eq, Nat.add_zero]
      simp only [UINT32_MOD] at hs ⊢
      omega
  | succ k ih =>
      rw [Function.iterate_succ_apply', ih, SysTick_Handler]
      simp only [UINT32_MOD]
      omega

/-- After k handler increments from a counter value below `2^32`, with
`k < 2^32`, the unsigned distance back to the start is exactly k. -/
lemma sub32_after_increments (s k : Nat) (hs : s < UINT32_MOD) (hk : k < UINT32_MOD) :
    sub32 (SysTick_Handler^[k] s) s = k := by
  rw [SysTick_Handler_iterate s k hs, sub32]
  simp only [UINT32_MOD] at hs hk ⊢
  omega

/-- C1: `timeout_elapsed(start, timeout)` is true exactly when the unsigned
32-bit difference between the current counter and `start` is at least
`timeout`; in particular, starting from counter value `0xFFFFFFF0`, after 32
handler increments (the counter having wrapped to `0x10`),
`elapsed(0xFFFFFFF0, 32)` is true and `elapsed(0xFFFFFFF0, 33)` is false. -/
theorem timeout_elapsed_modular_distance :
    (∀ now start timeout : Nat,
        timeout_elapsed now start timeout = true ↔ timeout ≤ sub32 now start) ∧
    SysTick_Handler^[32] 0xFFFFFFF0 = 0x10 ∧
    timeout_elapsed (SysTick_Handler^[32] 0xFFFFFFF0) 0xFFFFFFF0 32 = true ∧
    timeout_elapsed (SysTick_Handler^[32] 0xFFFFFFF0) 0xFFFFFFF0 33 = false := by
  refine ⟨fun now start timeout => ?_, ?_, ?_, ?_⟩
  · simp [timeout_elapsed]
  · rw [SysTick_Handler_iterate _ _ (by norm_num [UINT32_MOD])]
    norm_num [UINT32_MOD]
  · rw [SysTick_Handler_iterate _ _ (by norm_num [UINT32_MOD])]
    norm_num [timeout_elapsed, sub32, UINT32_MOD]
  · rw [SysTick_Handler_iterate _ _ (by norm_num [UINT32_MOD])]
    norm_num [timeout_elapsed, sub32, UINT32_MOD]

/-- C5: the tick counter is zero at boot, the handler adds exactly 1
(modulo `2^32`) on each invocation, and after 500 invocations from boot
`systick_get_ticks` reads 500, `elapsed(0, 500)` is true and
`elapsed(0, 501)` is false. -/
theorem tick_counter_from_boot :
    tick_count_boot = 0 ∧
    (∀ t, SysTick_Handler t = (t + 1) % UINT32_MOD) ∧
    systick_get_ticks (SysTick_Handler^[500] tick_count_boot) = 500 ∧
    timeout_elapsed (SysTick_Handler^[500] tick_count_boot) 0 500 = true ∧
    timeout_elapsed (SysTick_Handler^[500] tick_count_boot) 0 501 = false := by
  refine ⟨rfl, fun t => rfl, ?_, ?_, ?_⟩ <;>
    rw [SysTick_Handler_iterate _ _ (by norm_num [tick_count_boot, UINT32_MOD])] <;>
      norm_num [tick_count_boot, systick_get_ticks, timeout_elapsed, sub32, UINT32_MOD]

/-- C9: `delay_ms` spins until `timeout_elapsed(start, ms)` holds and returns
only then (at the first loop-condition check that sees it hold), and
`delay_ms(0)` returns immediately after zero spin iterations. -/
theorem delay_ms_spins_until_elapsed (start : Nat) (ticks : Nat → Nat) (fuel : Nat)
    (hfuel : 0 < fuel) :
    delay_ms start ticks 0 fuel = some 0 ∧
    (∀ ms n, delay_ms start ticks ms fuel = some n →
        timeout_elapsed (ticks n) start ms = true ∧
        ∀ k, k < n → timeout_elapsed (ticks k) start ms = false) := by
  constructor
  · obtain ⟨f, rfl⟩ : ∃ f, fuel = f + 1 := ⟨fuel - 1, by omega⟩
    simp [delay_ms, delay_ms_loop]
  · intro ms n h
    rw [delay_ms] at h
    have key : ∀ fuel i n, delay_ms_loop ticks start ms fuel i = some n →
        timeout_elapsed (ticks n) start ms = true ∧
        ∀ k, i ≤ k → k < n → timeout_elapsed (ticks k) start ms = false := by
      intro f
      induction f with
      | zero => intro i n h; simp [delay_ms_loop] at h
      | succ f ih =>
          intro i n h
          rw [delay_ms_loop] at h
          by_cases hcond : sub32 (ticks i) start < ms
          · rw [if_pos hcond] at h
            obtain ⟨h1, h2⟩ := ih (i + 1) n h
            refine ⟨h1, fun k hik hkn => ?_⟩
            by_cases hk : k = i
            · subst hk; simp [timeout_elapsed]; omega
            · exact h2 k (by omega) hkn
          · rw [if_neg hcond] at h
            obtain rfl : n = i := by
              have := Option.some.inj h
              omega
            exact ⟨by simp [timeout_elapsed]; omega, fun k hik hkn => by omega⟩
    obtain ⟨h1, h2⟩ := key fuel 0 n h
    exact ⟨h1, fun k hk => h2 k (Nat.zero_le k) hk⟩

/-- Instantiation of the delay theorem: with the counter frozen at 5,
`delay_ms(0)` exits after zero spin iterations. -/
theorem delay_ms_zero_instance :
    delay_ms 5 (fun _ => 5) 0 1 = some 0 :=
  (delay_ms_spins_until_elapsed 5 (fun _ => 5) 1 (by decide)).1

/-! ## GPIO driver (`drivers/gpio.c`, `drivers/gpio.h`)

The register block of one port (`gpio_port_t` in `gpio.h`) is a record of
seven 32-bit registers; each driver function is a state transformer on it.
The enumerations `status_t`, `pin_state_t` and `pin_mode_t` come from the
project's `types.h`, which is not part of the tree. -/

/-- Embedding of `gpio_port_t` (`gpio.h`): the seven 32-bit registers of one
GPIO bank, at byte offsets 0x00 .. 0x18. -/
structure gpio_port_t where
  CRL : Nat
  CRH : Nat
  IDR : Nat
  ODR : Nat
  BSRR : Nat
  BRR : Nat
  LCKR : Nat
deriving DecidableEq

/-- Modelled from the spec: `status_t` lives in the missing `types.h`; per
the spec's error taxonomy only the OK indicator and `InvalidParameter` occur. -/
inductive status_t where
  | STATUS_OK
  | STATUS_INVALID_PARAM
deriving DecidableEq

export status_t (STATUS_OK STATUS_INVALID_PARAM)

/-- Modelled from the spec: `pin_state_t` lives in the missing `types.h`;
the spec names exactly the two levels High and Low. -/
inductive pin_state_t where
  | PIN_HIGH
  | PIN_LOW
deriving DecidableEq

export pin_state_t (PIN_HIGH PIN_LOW)

/-- Modelled from the spec: `pin_mode_t` lives in the missing `types.h`; the
spec fixes the enumeration {Input, Output, Alternate, Analog}. It is kept as
an integer code (C default enum numbering) so that values outside the
enumeration can reach `gpio_configure`'s `default` branch; the claims only
depend on the four codes being distinct. -/
def PIN_MODE_INPUT : Nat := 0

/-- Modelled from the spec: second enumerator of `pin_mode_t`. -/
def PIN_MODE_OUTPUT : Nat := 1

/-- Modelled from the spec: third enumerator of `pin_mode_t`. -/
def PIN_MODE_ALTERNATE : Nat := 2

/-- Modelled from the spec: fourth enumerator of `pin_mode_t`. -/
def PIN_MODE_ANALOG : Nat := 3

/-- Configuration register MODE value `GPIO_MODE_INPUT` (`gpio.c`). -/
def GPIO_MODE_INPUT : Nat := 0x0

/-- Configuration register MODE value `GPIO_MODE_OUTPUT_2MHZ` (`gpio.c`). -/
def GPIO_MODE_OUTPUT_2MHZ : Nat := 0x2

/-- Configuration register MODE value `GPIO_MODE_OUTPUT_50MHZ` (`gpio.c`). -/
def GPIO_MODE_OUTPUT_50MHZ : Nat := 0x3

/-- Configuration register CNF value `GPIO_CNF_INPUT_ANALOG` (`gpio.c`). -/
def GPIO_CNF_INPUT_ANALOG : Nat := 0x0

/-- Configuration register CNF value `GPIO_CNF_INPUT_FLOATING` (`gpio.c`). -/
def GPIO_CNF_INPUT_FLOATING : Nat := 0x1

/-- Configuration register CNF value `GPIO_CNF_OUTPUT_PP` (`gpio.c`). -/
def GPIO_CNF_OUTPUT_PP : Nat := 0x0

/-- Configuration register CNF value `GPIO_CNF_AF_PP` (`gpio.c`). -/
def GPIO_CNF_AF_PP : Nat := 0x2

/-- Embedding of the `switch (mode)` of `gpio_configure`: the value the
local `config` receives for each recognised mode, `none` for the `default`
branch (which returns `STATUS_INVALID_PARAM`). -/
def mode_config (mode : Nat) : Option Nat :=
  if mode = PIN_MODE_INPUT then
    some ((GPIO_CNF_INPUT_FLOATING <<< 2) ||| GPIO_MODE_INPUT)
  else if mode = PIN_MODE_OUTPUT then
    some ((GPIO_CNF_OUTPUT_PP <<< 2) ||| GPIO_MODE_OUTPUT_2MHZ)
  else if mode = PIN_MODE_ALTERNATE then
    some ((GPIO_CNF_AF_PP <<< 2) ||| GPIO_MODE_OUTPUT_50MHZ)
  else if mode = PIN_MODE_ANALOG then
    some ((GPIO_CNF_INPUT_ANALOG <<< 2) ||| GPIO_MODE_INPUT)
  else
    none

/-- Embedding of `gpio_configure`.  The `port` argument is `none` for a NULL
pointer; the result pairs the returned `status_t` with the port state after
the call (unchanged on every error path).  The C complement `~(0xF << shift)`
on a `u32` operand is `UINT32_MAX ^^^ (0xF <<< shift)`. -/
def gpio_configure (port : Option gpio_port_t) (pin : Nat) (mode : Nat) :
    status_t × Option gpio_port_t :=
  match port with
  | none => (STATUS_INVALID_PARAM, none)
  | some p =>
    if pin > 15 then (STATUS_INVALID_PARAM, some p)
    else
      match mode_config mode with
      | none => (STATUS_INVALID_PARAM, some p)
      | some config =>
        if pin < 8 then
          let shift := pin * 4
          let crl := p.CRL &&& (UINT32_MAX ^^^ (0xF <<< shift))
          (STATUS_OK, some { p with CRL := crl ||| (config <<< shift) })
        else
          let shift := (pin - 8) * 4
          let crh := p.CRH &&& (UINT32_MAX ^^^ (0xF <<< shift))
          (STATUS_OK, some { p with CRH := crh ||| (config <<< shift) })

/-- Embedding of `gpio_write`: stores the single-bit mask `1 << pin` to BSRR
for `PIN_HIGH` and to BRR for `PIN_LOW`. -/
def gpio_write (p : gpio_port_t) (pin : Nat) (state : pin_state_t) : gpio_port_t :=
  if state = PIN_HIGH then { p with BSRR := 1 <<< pin }
  else { p with BRR := 1 <<< pin }

/-- Embedding of `gpio_read`: `(port->IDR & (1 << pin)) ? PIN_HIGH : PIN_LOW`. -/
def gpio_read (p : gpio_port_t) (pin : Nat) : pin_state_t :=
  if p.IDR &&& (1 <<< pin) ≠ 0 then PIN_HIGH else PIN_LOW

/-- Embedding of `gpio_toggle`: `port->ODR ^= (1 << pin);`. -/
def gpio_toggle (p : gpio_port_t) (pin : Nat) : gpio_port_t :=
  { p with ODR := p.ODR ^^^ (1 <<< pin) }

/-- Embedding of `GPIO_PinState_t` from the arm-reference-project fixture
driver (`Drivers/gpio.h`). -/
inductive GPIO_PinState_t where
  | GPIO_PIN_SET
  | GPIO_PIN_RESET
deriving DecidableEq

export GPIO_PinState_t (GPIO_PIN_SET GPIO_PIN_RESET)

/-- Embedding of `GPIO_WritePin` from the arm-reference-project fixture
driver (`Drivers/gpio.c`): its `GPIO_TypeDef` has the same seven registers,
and the low branch stores `1 << (pin + 16)` to BSRR instead of using BRR. -/
def GPIO_WritePin (p : gpio_port_t) (pin : Nat) (state : GPIO_PinState_t) :
    gpio_port_t :=
  if state = GPIO_PIN_SET then { p with BSRR := 1 <<< pin }
  else { p with BSRR := 1 <<< (pin + 16) }

/-- Value of the 4-bit configuration field of nibble i of a configuration
word: bits `i*4 .. i*4+3`. -/
def getNibble (w i : Nat) : Nat := (w >>> (i * 4)) &&& 0xF

/-! ## Helper lemmas about the nibble read-modify-write -/

/-- The clear-then-or update of `gpio_configure` writes v into nibble i. -/
lemma getNibble_rmw_self (w i v : Nat) (hi : i < 8) (hv : v < 16) :
    getNibble ((w &&& (UINT32_MAX ^^^ (0xF <<< (i * 4)))) ||| (v <<< (i * 4))) i = v := by
  have h15 : (0xF : Nat) = 2 ^ 4 - 1 := by norm_num
  have hmax : UINT32_MAX = 2 ^ 32 - 1 := by norm_num [UINT32_MAX]
  apply Nat.eq_of_testBit_eq
  intro b
  simp only [getNibble, h15, hmax, Nat.testBit_and, Nat.testBit_or,
    Nat.testBit_shiftRight, Nat.testBit_shiftLeft, Nat.testBit_xor,
    Nat.testBit_two_pow_sub_one]
  by_cases hb : b < 4
  · simp [hb, Nat.add_sub_cancel_left, show i * 4 ≤ i * 4 + b by omega,
      show i * 4 + b < 32 by omega, show b < 4 ∧ b < 4 ↔ b < 4 by tauto]
  · have hvb : v.testBit b = false :=
      Nat.testBit_eq_false_of_lt
        (lt_of_lt_of_le hv (by calc (16 : Nat) = 2 ^ 4 := by norm_num
                                 _ ≤ 2 ^ b := Nat.pow_le_pow_right (by norm_num) (by omega)))
    simp [hb, hvb]

/-- The clear-then-or update of `gpio_configure` leaves every other nibble
of the word unchanged. -/
lemma getNibble_rmw_other (w i j v : Nat) (hi : i < 8) (hj : j < 8) (hne : j ≠ i)
    (hv : v < 16) :
    getNibble ((w &&& (UINT32_MAX ^^^ (0xF <<< (i * 4)))) ||| (v <<< (i * 4))) j =
      getNibble w j := by
  have h15 : (0xF : Nat) = 2 ^ 4 - 1 := by norm_num
  have hmax : UINT32_MAX = 2 ^ 32 - 1 := by norm_num [UINT32_MAX]
  apply Nat.eq_of_testBit_eq
  intro b
  simp only [getNibble, h15, hmax, Nat.testBit_and, Nat.testBit_or,
    Nat.testBit_shiftRight, Nat.testBit_shiftLeft, Nat.testBit_xor,
    Nat.testBit_two_pow_sub_one]
  by_cases hb : b < 4
  · rcases Nat.lt_or_ge j i with hji | hji
    · simp [hb, show ¬ (i * 4 ≤ j * 4 + b) by omega, show j * 4 + b < 32 by omega]
    · have hij : i < j := by omega
      have hvb : v.testBit (j * 4 + b - i * 4) = false :=
        Nat.testBit_eq_false_of_lt
          (lt_of_lt_of_le hv (by calc (16 : Nat) = 2 ^ 4 := by norm_num
                                   _ ≤ 2 ^ (j * 4 + b - i * 4) :=
                                      Nat.pow_le_pow_right (by norm_num) (by omega)))
      simp [hb, hvb, show i * 4 ≤ j * 4 + b by omega, show j * 4 + b < 32 by omega,
        show ¬ (j * 4 + b - i * 4 < 4) by omega]
  · simp [hb]

/-- Every recognised mode yields a 4-bit `config` value. -/
lemma mode_config_of_valid (mode : Nat)
    (h : mode = PIN_MODE_INPUT ∨ mode = PIN_MODE_OUTPUT ∨
         mode = PIN_MODE_ALTERNATE ∨ mode = PIN_MODE_ANALOG) :
    ∃ c, mode_config mode = some c ∧ c < 16 := by
  rcases h with rfl | rfl | rfl | rfl <;> exact ⟨_, rfl, by decide⟩

/-- C2: for every pin in [0,15] and every enumerated mode, `gpio_configure`
returns `STATUS_OK` and writes the mode's fixed 4-bit encoding into the
pin's nibble of CRL (pins 0-7) or CRH (pins 8-15). -/
theorem gpio_configure_sets_mode_nibble (p : gpio_port_t) (pin mode : Nat)
    (hpin : pin ≤ 15)
    (hmode : mode = PIN_MODE_INPUT ∨ mode = PIN_MODE_OUTPUT ∨
             mode = PIN_MODE_ALTERNATE ∨ mode = PIN_MODE_ANALOG) :
    ∃ c p', mode_config mode = some c ∧
      gpio_configure (some p) pin mode = (STATUS_OK, some p') ∧
      (pin < 8 → getNibble p'.CRL pin = c) ∧
      (8 ≤ pin → getNibble p'.CRH (pin - 8) = c) := by
  obtain ⟨c, hc, hc16⟩ := mode_config_of_valid mode hmode
  by_cases hp8 : pin < 8
  · refine ⟨c,
      { p with CRL := (p.CRL &&& (UINT32_MAX ^^^ (0xF <<< (pin * 4)))) ||| (c <<< (pin * 4)) },
      hc, ?_, fun _ => getNibble_rmw_self p.CRL pin c hp8 hc16, fun h8 => by omega⟩
    simp [gpio_configure, hc, show ¬ pin > 15 by omega, hp8]
  · refine ⟨c,
      { p with CRH := (p.CRH &&& (UINT32_MAX ^^^ (0xF <<< ((pin - 8) * 4)))) |||
          (c <<< ((pin - 8) * 4)) },
      hc, ?_, fun h8 => by omega, fun _ => getNibble_rmw_self p.CRH (pin - 8) c (by omega) hc16⟩
    simp [gpio_configure, hc, show ¬ pin > 15 by omega, hp8]

/-- Concrete register block used to instantiate the universally quantified
theorems (CRL/CRH hold the STM32F1 reset value 0x44444444). -/
def port0 : gpio_port_t :=
  { CRL := 0x44444444, CRH := 0x44444444, IDR := 0, ODR := 0,
    BSRR := 0, BRR := 0, LCKR := 0 }

/-- Instantiation of the C2 theorem at pin 13 in Output mode. -/
theorem gpio_configure_sets_mode_nibble_witness :
    ∃ c p', mode_config PIN_MODE_OUTPUT = some c ∧
      gpio_configure (some port0) 13 PIN_MODE_OUTPUT = (STATUS_OK, some p') ∧
      (13 < 8 → getNibble p'.CRL 13 = c) ∧
      (8 ≤ 13 → getNibble p'.CRH (13 - 8) = c) :=
  gpio_configure_sets_mode_nibble port0 13 PIN_MODE_OUTPUT (by norm_num)
    (Or.inr (Or.inl rfl))

/-- C3: `gpio_configure` with a NULL port, or with any pin above 15, returns
`STATUS_INVALID_PARAM` and leaves the port state exactly as it was. -/
theorem gpio_configure_rejects_bad_args :
    (∀ pin mode, gpio_configure none pin mode = (STATUS_INVALID_PARAM, none)) ∧
    (∀ (p : gpio_port_t) pin mode, pin > 15 →
        gpio_configure (some p) pin mode = (STATUS_INVALID_PARAM, some p)) := by
  refine ⟨fun pin mode => rfl, fun p pin mode hpin => ?_⟩
  simp [gpio_configure, hpin]

/-- Instantiation of the C3 theorem at pin 16. -/
theorem gpio_configure_rejects_bad_args_witness :
    gpio_configure (some port0) 16 PIN_MODE_OUTPUT = (STATUS_INVALID_PARAM, some port0) :=
  gpio_configure_rejects_bad_args.2 port0 16 PIN_MODE_OUTPUT (by norm_num)

/-- C4: a successful `gpio_configure` is the clear-then-or read-modify-write
on the selected configuration word only: the other configuration word and
the IDR, ODR, BSRR, BRR and LCKR registers are untouched, and every nibble
of the selected word other than the pin's own is unchanged. -/
theorem gpio_configure_frame (p : gpio_port_t) (pin mode : Nat)
    (hpin : pin ≤ 15)
    (hmode : mode = PIN_MODE_INPUT ∨ mode = PIN_MODE_OUTPUT ∨
             mode = PIN_MODE_ALTERNATE ∨ mode = PIN_MODE_ANALOG) :
    ∃ c p', mode_config mode = some c ∧
      gpio_configure (some p) pin mode = (STATUS_OK, some p') ∧
      p'.IDR = p.IDR ∧ p'.ODR = p.ODR ∧ p'.BSRR = p.BSRR ∧
      p'.BRR = p.BRR ∧ p'.LCKR = p.LCKR ∧
      (pin < 8 →
        p'.CRH = p.CRH ∧
        p'.CRL = (p.CRL &&& (UINT32_MAX ^^^ (0xF <<< (pin * 4)))) ||| (c <<< (pin * 4)) ∧
        ∀ j, j < 8 → j ≠ pin → getNibble p'.CRL j = getNibble p.CRL j) ∧
      (8 ≤ pin →
        p'.CRL = p.CRL ∧
        p'.CRH = (p.CRH &&& (UINT32_MAX ^^^ (0xF <<< ((pin - 8) * 4)))) |||
          (c <<< ((pin - 8) * 4)) ∧
        ∀ j, j < 8 → j ≠ pin - 8 → getNibble p'.CRH j = getNibble p.CRH j) := by
  obtain ⟨c, hc, hc16⟩ := mode_config_of_valid mode hmode
  by_cases hp8 : pin < 8
  · refine ⟨c,
      { p with CRL := (p.CRL &&& (UINT32_MAX ^^^ (0xF <<< (pin * 4)))) ||| (c <<< (pin * 4)) },
      hc, ?_, rfl, rfl, rfl, rfl, rfl,
      fun _ => ⟨rfl, rfl, fun j hj hne => getNibble_rmw_other p.CRL pin j c hp8 hj hne hc16⟩,
      fun h8 => by omega⟩
    simp [gpio_configure, hc, show ¬ pin > 15 by omega, hp8]
  · refine ⟨c,
      { p with CRH := (p.CRH &&& (UINT32_MAX ^^^ (0xF <<< ((pin - 8) * 4)))) |||
          (c <<< ((pin - 8) * 4)) },
      hc, ?_, rfl, rfl, rfl, rfl, rfl, fun h8 => by omega,
      fun _ => ⟨rfl, rfl,
        fun j hj hne => getNibble_rmw_other p.CRH (pin - 8) j c (by omega) hj hne hc16⟩⟩
    simp [gpio_configure, hc, show ¬ pin > 15 by omega, hp8]

/-- Instantiation of the C4 frame theorem at pin 3 in Input mode. -/
theorem gpio_configure_frame_witness :
    ∃ c p', mode_config PIN_MODE_INPUT = some c ∧
      gpio_configure (some port0) 3 PIN_MODE_INPUT = (STATUS_OK, some p') ∧
      p'.IDR = port0.IDR ∧ p'.ODR = port0.ODR ∧ p'.BSRR = port0.BSRR ∧
      p'.BRR = port0.BRR ∧ p'.LCKR = port0.LCKR ∧
      (3 < 8 →
        p'.CRH = port0.CRH ∧
        p'.CRL = (port0.CRL &&& (UINT32_MAX ^^^ (0xF <<< (3 * 4)))) ||| (c <<< (3 * 4)) ∧
        ∀ j, j < 8 → j ≠ 3 → getNibble p'.CRL j = getNibble port0.CRL j) ∧
      (8 ≤ 3 →
        p'.CRL = port0.CRL ∧
        p'.CRH = (port0.CRH &&& (UINT32_MAX ^^^ (0xF <<< ((3 - 8) * 4)))) |||
          (c <<< ((3 - 8) * 4)) ∧
        ∀ j, j < 8 → j ≠ 3 - 8 → getNibble p'.CRH j = getNibble port0.CRH j) :=
  gpio_configure_frame port0 3 PIN_MODE_INPUT (by norm_num) (Or.inl rfl)

/-- Bit j of the single-bit mask `1 << pin`. -/
lemma one_shiftLeft_testBit (pin j : Nat) : (1 <<< pin).testBit j = decide (pin = j) := by
  rw [Nat.shiftLeft_eq, Nat.one_mul, Nat.testBit_two_pow]

/-- Bit pin of `1 << pin` is set. -/
lemma one_shiftLeft_testBit_self (pin : Nat) : (1 <<< pin).testBit pin = true := by
  rw [one_shiftLeft_testBit]
  simp

/-- No other bit of `1 << pin` is set. -/
lemma one_shiftLeft_testBit_ne (pin j : Nat) (h : j ≠ pin) : (1 <<< pin).testBit j = false := by
  rw [one_shiftLeft_testBit]
  simp [Ne.symm h]

/-- C6: toggling a pin twice restores the whole port state, and one toggle
is the XOR of bit `pin` into ODR: it flips exactly that bit of ODR, leaves
every other ODR bit unchanged and touches no other register. -/
theorem gpio_toggle_involution (p : gpio_port_t) (pin : Nat) (_hpin : pin ≤ 15) :
    gpio_toggle (gpio_toggle p pin) pin = p ∧
    gpio_toggle p pin = { p with ODR := p.ODR ^^^ (1 <<< pin) } ∧
    (gpio_toggle p pin).ODR.testBit pin = !(p.ODR.testBit pin) ∧
    (∀ j, j ≠ pin → (gpio_toggle p pin).ODR.testBit j = p.ODR.testBit j) ∧
    (gpio_toggle p pin).CRL = p.CRL ∧ (gpio_toggle p pin).CRH = p.CRH ∧
    (gpio_toggle p pin).IDR = p.IDR ∧ (gpio_toggle p pin).BSRR = p.BSRR ∧
    (gpio_toggle p pin).BRR = p.BRR ∧ (gpio_toggle p pin).LCKR = p.LCKR := by
  refine ⟨?_, rfl, ?_, ?_, rfl, rfl, rfl, rfl, rfl, rfl⟩
  · cases p
    simp only [gpio_toggle]
    rw [Nat.xor_assoc, Nat.xor_self, Nat.xor_zero]
  · simp only [gpio_toggle, Nat.testBit_xor, one_shiftLeft_testBit_self, Bool.xor_true]
  · intro j hj
    simp only [gpio_toggle, Nat.testBit_xor, one_shiftLeft_testBit_ne pin j hj,
      Bool.xor_false]

/-- Instantiation of the C6 toggle theorem at port0, pin 13. -/
theorem gpio_toggle_involution_witness :
    gpio_toggle (gpio_toggle port0 13) 13 = port0 ∧
    gpio_toggle port0 13 = { port0 with ODR := port0.ODR ^^^ (1 <<< 13) } ∧
    (gpio_toggle port0 13).ODR.testBit 13 = !(port0.ODR.testBit 13) ∧
    (∀ j, j ≠ 13 → (gpio_toggle port0 13).ODR.testBit j = port0.ODR.testBit j) ∧
    (gpio_toggle port0 13).CRL = port0.CRL ∧ (gpio_toggle port0 13).CRH = port0.CRH ∧
    (gpio_toggle port0 13).IDR = port0.IDR ∧ (gpio_toggle port0 13).BSRR = port0.BSRR ∧
    (gpio_toggle port0 13).BRR = port0.BRR ∧ (gpio_toggle port0 13).LCKR = port0.LCKR :=
  gpio_toggle_involution port0 13 (by norm_num)

/-- C7: `gpio_write` performs exactly one store of the single-bit mask
`1 << pin` (to BSRR for High, to BRR for Low) and no read-modify-write: the
stored mask has no bit of any other pin set, and every register other than
the single target keeps its previous value; `GPIO_WritePin` of the fixture
driver stores `1 << pin` to BSRR for High and `1 << (pin + 16)` to BSRR for
Low. -/
theorem gpio_write_single_store (p : gpio_port_t) (pin : Nat) (_hpin : pin ≤ 15) :
    gpio_write p pin PIN_HIGH = { p with BSRR := 1 <<< pin } ∧
    gpio_write p pin PIN_LOW = { p with BRR := 1 <<< pin } ∧
    GPIO_WritePin p pin GPIO_PIN_SET = { p with BSRR := 1 <<< pin } ∧
    GPIO_WritePin p pin GPIO_PIN_RESET = { p with BSRR := 1 <<< (pin + 16) } ∧
    (1 <<< pin).testBit pin = true ∧
    (∀ j, j ≠ pin → (1 <<< pin).testBit j = false) := by
  refine ⟨rfl, by simp [gpio_write], rfl, by simp [GPIO_WritePin], ?_, ?_⟩
  · exact one_shiftLeft_testBit_self pin
  · exact fun j hj => one_shiftLeft_testBit_ne pin j hj

/-- Instantiation of the C7 write theorem at port0, pin 5. -/
theorem gpio_write_single_store_witness :
    gpio_write port0 5 PIN_HIGH = { port0 with BSRR := 1 <<< 5 } ∧
    gpio_write port0 5 PIN_LOW = { port0 with BRR := 1 <<< 5 } ∧
    GPIO_WritePin port0 5 GPIO_PIN_SET = { port0 with BSRR := 1 <<< 5 } ∧
    GPIO_WritePin port0 5 GPIO_PIN_RESET = { port0 with BSRR := 1 <<< (5 + 16) } ∧
    (1 <<< 5).testBit 5 = true ∧
    (∀ j, j ≠ 5 → (1 <<< 5).testBit j = false) :=
  gpio_write_single_store port0 5 (by norm_num)

/-! ## Hardware model for the write/read round trip

`gpio_write` stores to the write-only BSRR/BRR registers while `gpio_read`
masks IDR, so the round trip of C8 needs the hardware reaction in between.
The two `..._store` functions below model the spec's description of the
set/reset mechanism (glossary and section 4.2): a bit written to BSRR's low
half drives the pin high, a bit in BSRR's high half or in BRR drives it
low, and the driven output level is reflected on the input-data register. -/

/-- Hardware reaction to a store of v into BSRR: low-half bits drive the
corresponding ODR bits high, high-half bits drive them low, and IDR
reflects the driven output. -/
def bsrr_store (p : gpio_port_t) (v : Nat) : gpio_port_t :=
  let odr := (p.ODR &&& (UINT32_MAX ^^^ (v >>> 16))) ||| (v &&& 0xFFFF)
  { p with BSRR := v, ODR := odr, IDR := odr }

/-- Hardware reaction to a store of v into the reset-only BRR register:
low-half bits drive the corresponding ODR bits low, and IDR reflects the
driven output. -/
def brr_store (p : gpio_port_t) (v : Nat) : gpio_port_t :=
  let odr := p.ODR &&& (UINT32_MAX ^^^ (v &&& 0xFFFF))
  { p with BRR := v, ODR := odr, IDR := odr }

/-- `gpio_write` together with the hardware reaction to its single store:
the same branch structure and the same single-bit mask as `gpio_write`, with
the target register's hardware semantics applied. -/
def gpio_write_hw (p : gpio_port_t) (pin : Nat) (state : pin_state_t) : gpio_port_t :=
  if state = PIN_HIGH then bsrr_store p (1 <<< pin) else brr_store p (1 <<< pin)

/-- C8: for every pin in [0,15], writing High and then reading the pin
yields High, and writing Low then reading yields Low, under the hardware
model that reflects the driven output on IDR; moreover the hardware-level
write stores exactly the mask that `gpio_write` stores. -/
theorem gpio_write_read_roundtrip (p : gpio_port_t) (pin : Nat) (hpin : pin ≤ 15) :
    gpio_read (gpio_write_hw p pin PIN_HIGH) pin = PIN_HIGH ∧
    gpio_read (gpio_write_hw p pin PIN_LOW) pin = PIN_LOW ∧
    (gpio_write_hw p pin PIN_HIGH).BSRR = (gpio_write p pin PIN_HIGH).BSRR ∧
    (gpio_write_hw p pin PIN_LOW).BRR = (gpio_write p pin PIN_LOW).BRR := by
  have hf : (0xFFFF : Nat).testBit pin = true := by
    have h : (0xFFFF : Nat) = 2 ^ 16 - 1 := by norm_num
    rw [h, Nat.testBit_two_pow_sub_one]
    exact decide_eq_true (by omega)
  have hmb : UINT32_MAX.testBit pin = true := by
    have h : UINT32_MAX = 2 ^ 32 - 1 := by norm_num [UINT32_MAX]
    rw [h, Nat.testBit_two_pow_sub_one]
    exact decide_eq_true (by omega)
  have hIDRH : (gpio_write_hw p pin PIN_HIGH).IDR
      = (p.ODR &&& (UINT32_MAX ^^^ ((1 <<< pin) >>> 16))) ||| ((1 <<< pin) &&& 0xFFFF) := rfl
  have hIDRL : (gpio_write_hw p pin PIN_LOW).IDR
      = p.ODR &&& (UINT32_MAX ^^^ ((1 <<< pin) &&& 0xFFFF)) := rfl
  have hbitH : (gpio_write_hw p pin PIN_HIGH).IDR.testBit pin = true := by
    rw [hIDRH]
    simp only [Nat.testBit_or, Nat.testBit_and, one_shiftLeft_testBit_self, hf,
      Bool.true_and, Bool.and_true, Bool.or_true]
  have hbitL : (gpio_write_hw p pin PIN_LOW).IDR.testBit pin = false := by
    rw [hIDRL]
    simp only [Nat.testBit_and, Nat.testBit_xor, one_shiftLeft_testBit_self, hf, hmb,
      Bool.and_true, Bool.true_and]
    simp
  refine ⟨?_, ?_, by simp [gpio_write, gpio_write_hw, bsrr_store],
    by simp [gpio_write, gpio_write_hw, brr_store]⟩
  · have hc : (gpio_write_hw p pin PIN_HIGH).IDR &&& (1 <<< pin) ≠ 0 := by
      rw [Nat.shiftLeft_eq, Nat.one_mul, Nat.and_two_pow, hbitH]
      simp
    simp [gpio_read, hc]
  · have hc : (gpio_write_hw p pin PIN_LOW).IDR &&& (1 <<< pin) = 0 := by
      rw [Nat.shiftLeft_eq, Nat.one_mul, Nat.and_two_pow, hbitL]
      simp
    simp [gpio_read, hc]

/-- Instantiation of the C8 round-trip theorem at port0, pin 13. -/
theorem gpio_write_read_roundtrip_witness :
    gpio_read (gpio_write_hw port0 13 PIN_HIGH) 13 = PIN_HIGH ∧
    gpio_read (gpio_write_hw port0 13 PIN_LOW) 13 = PIN_LOW ∧
    (gpio_write_hw port0 13 PIN_HIGH).BSRR = (gpio_write port0 13 PIN_HIGH).BSRR ∧
    (gpio_write_hw port0 13 PIN_LOW).BRR = (gpio_write port0 13 PIN_LOW).BRR :=
  gpio_write_read_roundtrip port0 13 (by norm_num)

/-- C10: a mode value outside the four enumerated pin modes makes
`gpio_configure` take the `default` branch of its switch: it returns
`STATUS_INVALID_PARAM` and leaves the port state exactly as it was, even
for a valid port and a pin in [0,15]. -/
theorem gpio_configure_unknown_mode (p : gpio_port_t) (pin mode : Nat)
    (hpin : pin ≤ 15)
    (h1 : mode ≠ PIN_MODE_INPUT) (h2 : mode ≠ PIN_MODE_OUTPUT)
    (h3 : mode ≠ PIN_MODE_ALTERNATE) (h4 : mode ≠ PIN_MODE_ANALOG) :
    gpio_configure (some p) pin mode = (STATUS_INVALID_PARAM, some p) := by
  simp [gpio_configure, mode_config, h1, h2, h3, h4, show ¬ pin > 15 by omega]

/-- Instantiation of the C10 theorem at port0, pin 0, mode code 7. -/
theorem gpio_configure_unknown_mode_witness :
    gpio_configure (some port0) 0 7 = (STATUS_INVALID_PARAM, some port0) :=
  gpio_configure_unknown_mode port0 0 7 (by norm_num) (by decide) (by decide)
    (by decide) (by decide)
